import Mathlib

/-!
Verification development for build/generate-future-functions.py, the code
generator producing the future/background test-support functions for
mock_server_t.  The generator is a straight-line Python script: it declares a
registry of value kinds (typedef_list and its name projection type_list), a
static list of operation descriptors (future_functions), runs a validation
loop that raises on the first parameter kind missing from the registry, and
then renders six template files.  Below, each of those pieces is embedded as
a Lean definition translated from the source, and the properties of the
validation and emission phases are proved about them.  The template contents
and the rendered file text are external to the generator source, so emission
is modelled as the ordered list of file names written.
-/

set_option linter.dupNamespace false

/-- Embeds the namedtuple `typedef = namedtuple("typedef", ["name", "typedef"])`:
a registry entry with a canonical name and an optional representation
descriptor (None for primitive kinds). -/
structure typedef where
  name : String
  typedef : Option String
  deriving DecidableEq

/-- Embeds `param = namedtuple("param", ["type_name", "name"])`. -/
structure param where
  type_name : String
  name : String
  deriving DecidableEq

/-- Embeds `future_function = namedtuple("future_function", ["ret_type", "name", "params"])`. -/
structure future_function where
  ret_type : String
  name : String
  params : List param
  deriving DecidableEq

/-- Embeds `typedef_list`, the static registry of value kinds, entry for
entry in source order. -/
def typedef_list : List typedef := [
  ⟨"bool", none⟩,
  ⟨"bson_error_ptr", some "bson_error_t *"⟩,
  ⟨"bson_ptr", some "bson_t *"⟩,
  ⟨"char_ptr", some "char *"⟩,
  ⟨"char_ptr_ptr", some "char **"⟩,
  ⟨"const_char_ptr", some "const char *"⟩,
  ⟨"const_bson_ptr", some "const bson_t *"⟩,
  ⟨"const_bson_ptr_ptr", some "const bson_t **"⟩,
  ⟨"const_mongoc_read_prefs_ptr", some "const mongoc_read_prefs_t *"⟩,
  ⟨"mongoc_bulk_operation_ptr", some "mongoc_bulk_operation_t *"⟩,
  ⟨"mongoc_client_ptr", some "mongoc_client_t *"⟩,
  ⟨"mongoc_cursor_ptr", some "mongoc_cursor_t *"⟩,
  ⟨"mongoc_database_ptr", some "mongoc_database_t *"⟩,
  ⟨"mongoc_query_flags_t", none⟩,
  ⟨"uint32_t", none⟩]

/-- Embeds `type_list = [T.name for T in typedef_list]`. -/
def type_list : List String := typedef_list.map typedef.name

/-- Embeds `future_functions`, the static operation descriptor list, entry
for entry in source order. -/
def future_functions : List future_function := [
  ⟨"uint32_t", "bulk_operation_execute",
    [⟨"mongoc_bulk_operation_ptr", "bulk"⟩,
     ⟨"bson_ptr", "reply"⟩,
     ⟨"bson_error_ptr", "error"⟩]⟩,
  ⟨"bool", "client_command_simple",
    [⟨"mongoc_client_ptr", "client"⟩,
     ⟨"const_char_ptr", "db_name"⟩,
     ⟨"const_bson_ptr", "command"⟩,
     ⟨"const_mongoc_read_prefs_ptr", "read_prefs"⟩,
     ⟨"bson_ptr", "reply"⟩,
     ⟨"bson_error_ptr", "error"⟩]⟩,
  ⟨"bool", "cursor_next",
    [⟨"mongoc_cursor_ptr", "cursor"⟩,
     ⟨"const_bson_ptr_ptr", "doc"⟩]⟩,
  ⟨"char_ptr_ptr", "client_get_database_names",
    [⟨"mongoc_client_ptr", "client"⟩,
     ⟨"bson_error_ptr", "error"⟩]⟩,
  ⟨"char_ptr_ptr", "database_get_collection_names",
    [⟨"mongoc_database_ptr", "database"⟩,
     ⟨"bson_error_ptr", "error"⟩]⟩]

/-- The payload of the exception raised by the validation loop:
`Exception('bad type "%s"\n\nin %s' % (p.type_name, fn))` interpolates the
offending kind name and the whole referencing descriptor into the message. -/
structure BadType where
  type_name : String
  fn : future_function
  deriving DecidableEq

/-- Embeds the inner loop `for p in fn.params: if p.type_name not in
type_list: raise ...` for one descriptor: scans the parameters in declared
order and raises on the first kind missing from the registry names. -/
def validateParams (tl : List String) (fn : future_function) :
    List param → Except BadType Unit
  | [] => Except.ok ()
  | p :: ps =>
    if p.type_name ∈ tl then validateParams tl fn ps
    else Except.error ⟨p.type_name, fn⟩

/-- Embeds the module-level validation loop `for fn in future_functions:
...`: scans descriptors in declared order, propagating the first raise. -/
def validate (tl : List String) : List future_function → Except BadType Unit
  | [] => Except.ok ()
  | fn :: fns =>
    match validateParams tl fn fn.params with
    | Except.ok () => validate tl fns
    | Except.error e => Except.error e

/-- Embeds `files`, the list of file names the emission loop writes, in
source order. -/
def files : List String := [
  "future.h",
  "future.c",
  "future-value.h",
  "future-value.c",
  "future-functions.h",
  "future-functions.c"]

/-- Embeds the whole script run on a registry and an operation list: the
validation loop runs first; if it raises, the exception propagates and the
emission loop never runs (no file is written); otherwise the emission loop
writes every name in `files`.  Template text is external to the source, so
the emitted output is modelled as the list of written file names. -/
def runGenerator (tdl : List typedef) (fns : List future_function) :
    Except BadType (List String) :=
  match validate (tdl.map typedef.name) fns with
  | Except.ok () => Except.ok files
  | Except.error e => Except.error e

/-- The generator state threaded through the validation loop: the registry
and the operation list, the only script data the loop reads.  Used to state
the frame property of validation. -/
structure GenState where
  typedefs : List typedef
  ops : List future_function
  deriving DecidableEq

/-- The body of the inner validation loop as a state transition: the Python
statement `if p.type_name not in type_list: raise ...` either raises or
falls through with the state it was given (it contains no assignment). -/
def checkFn (s : GenState) (fn : future_function) :
    List param → Except BadType GenState
  | [] => Except.ok s
  | p :: ps =>
    if p.type_name ∈ s.typedefs.map typedef.name then checkFn s fn ps
    else Except.error ⟨p.type_name, fn⟩

/-- The outer validation loop as a state transition, threading the state
produced by each iteration into the next. -/
def validationLoopAux (s : GenState) :
    List future_function → Except BadType GenState
  | [] => Except.ok s
  | fn :: fns =>
    match checkFn s fn fn.params with
    | Except.ok s1 => validationLoopAux s1 fns
    | Except.error e => Except.error e

/-- The validation pass over the full generator state. -/
def validationLoop (s : GenState) : Except BadType GenState :=
  validationLoopAux s s.ops

/-- Spec-side definition, written from the words of the specification for
the refinement claim about determinism: the first parameter whose kind is
absent from the registry, scanning operations in declared list order and
each operation parameters in declared order, paired with its operation. -/
def firstUnregisteredParam (tl : List String) :
    List future_function → Option (future_function × param)
  | [] => none
  | fn :: fns =>
    match fn.params.find? (fun p => decide (p.type_name ∉ tl)) with
    | some p => some (fn, p)
    | none => firstUnregisteredParam tl fns

/-- A descriptor whose return kind is not registered but whose parameter
list is empty: used to exercise the validation loop on return kinds. -/
def retOnlyOp : future_function := ⟨"frobnicator_ptr", "ping", []⟩

/-- A descriptor referencing an unregistered parameter kind. -/
def badParamOp : future_function :=
  ⟨"bool", "frobnicate", [⟨"frobnicator_ptr", "input"⟩]⟩

/-- A registry list with a duplicated name. -/
def dupRegistry : List typedef := [⟨"bool", none⟩, ⟨"bool", none⟩]

/-- A descriptor all of whose kinds resolve in `dupRegistry`. -/
def dupOp : future_function := ⟨"bool", "f", [⟨"bool", "x"⟩]⟩

/-- The registry with every representation descriptor erased: same names as
`typedef_list`, all `typedef` fields set to none. -/
def strippedRegistry : List typedef :=
  typedef_list.map (fun t => ⟨t.name, none⟩)

theorem validateParams_ok_iff (tl : List String) (fn : future_function)
    (ps : List param) :
    validateParams tl fn ps = Except.ok () ↔ ∀ p ∈ ps, p.type_name ∈ tl := by
  induction ps with
  | nil => simp [validateParams]
  | cons p ps ih =>
    by_cases h : p.type_name ∈ tl
    · simp [validateParams, h, ih]
    · simp [validateParams, h]

theorem validate_ok_iff (tl : List String) (fns : List future_function) :
    validate tl fns = Except.ok () ↔
      ∀ fn ∈ fns, ∀ p ∈ fn.params, p.type_name ∈ tl := by
  induction fns with
  | nil => simp [validate]
  | cons fn fns ih =>
    simp only [validate]
    cases h : validateParams tl fn fn.params with
    | ok u =>
      cases u
      rw [validateParams_ok_iff] at h
      rw [ih]
      simp only [List.forall_mem_cons]
      exact ⟨fun hr => ⟨h, hr⟩, fun hr => hr.2⟩
    | error e =>
      have h2 : ¬ ∀ p ∈ fn.params, p.type_name ∈ tl := by
        intro hall
        rw [← validateParams_ok_iff tl fn] at hall
        rw [hall] at h
        exact Except.noConfusion h
      simp only [List.forall_mem_cons]
      constructor
      · intro hcontra
        exact absurd hcontra Except.noConfusion
      · intro hcontra
        exact absurd hcontra.1 h2

theorem validateParams_eq_find (tl : List String) (fn : future_function)
    (ps : List param) :
    validateParams tl fn ps =
      match ps.find? (fun p => decide (p.type_name ∉ tl)) with
      | none => Except.ok ()
      | some p => Except.error ⟨p.type_name, fn⟩ := by
  induction ps with
  | nil => simp [validateParams]
  | cons p ps ih =>
    by_cases h : p.type_name ∈ tl
    · simp [validateParams, List.find?, h, ih]
    · simp [validateParams, List.find?, h]

theorem validate_eq_firstUnregistered (tl : List String)
    (fns : List future_function) :
    validate tl fns =
      match firstUnregisteredParam tl fns with
      | none => Except.ok ()
      | some (fn, p) => Except.error ⟨p.type_name, fn⟩ := by
  induction fns with
  | nil => simp [validate, firstUnregisteredParam]
  | cons fn fns ih =>
    simp only [validate, firstUnregisteredParam, validateParams_eq_find]
    cases h : fn.params.find? (fun p => decide (p.type_name ∉ tl)) with
    | none => simpa using ih
    | some p => simp

theorem find_unregistered_spec (tl : List String) :
    ∀ (fns : List future_function) (fn : future_function) (p : param),
    firstUnregisteredParam tl fns = some (fn, p) →
    fn ∈ fns ∧ p ∈ fn.params ∧ p.type_name ∉ tl := by
  intro fns
  induction fns with
  | nil => intro fn p h; simp [firstUnregisteredParam] at h
  | cons g fns ih =>
    intro fn p h
    simp only [firstUnregisteredParam] at h
    cases hf : g.params.find? (fun q => decide (q.type_name ∉ tl)) with
    | none =>
      rw [hf] at h
      rcases ih fn p h with ⟨h1, h2, h3⟩
      exact ⟨List.mem_cons_of_mem g h1, h2, h3⟩
    | some q =>
      rw [hf] at h
      have hq : g = fn ∧ q = p := by simpa using h
      rcases hq with ⟨hg, hqp⟩
      subst hg
      subst hqp
      have hmem := List.find?_some hf
      have hmem2 := List.mem_of_find?_eq_some hf
      simp at hmem
      exact ⟨List.mem_cons_self g fns, hmem2, hmem⟩

theorem validate_exists_error (tl : List String)
    (fns : List future_function)
    (h : ¬ ∀ fn ∈ fns, ∀ p ∈ fn.params, p.type_name ∈ tl) :
    ∃ e : BadType, validate tl fns = Except.error e ∧
      e.type_name ∉ tl ∧ e.fn ∈ fns ∧
      ∃ p ∈ e.fn.params, p.type_name = e.type_name := by
  rw [← validate_ok_iff] at h
  rw [validate_eq_firstUnregistered] at h ⊢
  cases hx : firstUnregisteredParam tl fns with
  | none => rw [hx] at h; simp at h
  | some pr =>
    rcases pr with ⟨fn, p⟩
    rcases find_unregistered_spec tl fns fn p hx with ⟨h1, h2, h3⟩
    exact ⟨⟨p.type_name, fn⟩, rfl, h3, h1, p, h2, rfl⟩

theorem validateParams_membership_invariant (tl1 tl2 : List String)
    (hm : ∀ s, s ∈ tl1 ↔ s ∈ tl2) (fn : future_function) (ps : List param) :
    validateParams tl1 fn ps = validateParams tl2 fn ps := by
  induction ps with
  | nil => rfl
  | cons p ps ih =>
    simp only [validateParams]
    by_cases h : p.type_name ∈ tl1
    · rw [if_pos h, if_pos ((hm _).mp h), ih]
    · rw [if_neg h, if_neg (fun hc => h ((hm _).mpr hc))]

theorem validate_membership_invariant (tl1 tl2 : List String)
    (hm : ∀ s, s ∈ tl1 ↔ s ∈ tl2) (fns : List future_function) :
    validate tl1 fns = validate tl2 fns := by
  induction fns with
  | nil => rfl
  | cons fn fns ih =>
    simp only [validate, validateParams_membership_invariant tl1 tl2 hm fn, ih]

theorem checkFn_preserves (s : GenState) (fn : future_function) :
    ∀ (ps : List param) (s1 : GenState),
    checkFn s fn ps = Except.ok s1 → s1 = s := by
  intro ps
  induction ps with
  | nil =>
    intro s1 h
    simp only [checkFn] at h
    exact (Except.ok.inj h).symm
  | cons p ps ih =>
    intro s1 h
    simp only [checkFn] at h
    by_cases hc : p.type_name ∈ s.typedefs.map typedef.name
    · rw [if_pos hc] at h
      exact ih s1 h
    · rw [if_neg hc] at h
      exact absurd h (fun hcontra => Except.noConfusion hcontra)

theorem validationLoopAux_preserves :
    ∀ (fns : List future_function) (s s1 : GenState),
    validationLoopAux s fns = Except.ok s1 → s1 = s := by
  intro fns
  induction fns with
  | nil =>
    intro s s1 h
    simp only [validationLoopAux] at h
    exact (Except.ok.inj h).symm
  | cons fn fns ih =>
    intro s s1 h
    simp only [validationLoopAux] at h
    cases hc : checkFn s fn fn.params with
    | ok s2 =>
      rw [hc] at h
      rw [ih s2 s1 h, checkFn_preserves s fn fn.params s2 hc]
    | error e =>
      rw [hc] at h
      exact absurd h (fun hcontra => Except.noConfusion hcontra)

/-- Claim C1, counterexample: the claim says validation also checks the
return kind, but a descriptor whose return kind `frobnicator_ptr` is not
registered and whose parameter list is empty passes validation and the
generator emits all files, so validation does not fail on an unregistered
return kind. -/
theorem C1_counterexample :
    ("frobnicator_ptr" : String) ∉ type_list ∧
    retOnlyOp.ret_type = "frobnicator_ptr" ∧
    validate type_list [retOnlyOp] = Except.ok () ∧
    runGenerator typedef_list [retOnlyOp] = Except.ok files :=
  ⟨by decide, rfl, rfl, rfl⟩

/-- Claim C1, amended: validation checks every parameter kind of every
operation for membership in the registry, and it succeeds exactly when all
parameter kinds are registered; the return kind is not consulted. -/
theorem C1_amended_params_only_validated (tl : List String)
    (fns : List future_function) :
    validate tl fns = Except.ok () ↔
      ∀ fn ∈ fns, ∀ p ∈ fn.params, p.type_name ∈ tl :=
  validate_ok_iff tl fns

/-- Claim C2: if validation raises, the whole run yields that error and no
file list is produced; a successful run implies the validation loop over
every operation completed without error, and only then is the full file
list emitted. -/
theorem C2_no_emission_on_validation_failure (tdl : List typedef)
    (fns : List future_function) :
    (∀ e, validate (tdl.map typedef.name) fns = Except.error e →
      runGenerator tdl fns = Except.error e ∧
      ∀ out, runGenerator tdl fns ≠ Except.ok out) ∧
    (∀ out, runGenerator tdl fns = Except.ok out →
      validate (tdl.map typedef.name) fns = Except.ok () ∧ out = files) := by
  constructor
  · intro e he
    have hg : runGenerator tdl fns = Except.error e := by
      unfold runGenerator
      rw [he]
    refine ⟨hg, fun out hcontra => ?_⟩
    rw [hg] at hcontra
    exact Except.noConfusion hcontra
  · intro out hout
    unfold runGenerator at hout
    cases hv : validate (tdl.map typedef.name) fns with
    | ok u =>
      cases u
      rw [hv] at hout
      exact ⟨rfl, (Except.ok.inj hout).symm⟩
    | error e =>
      rw [hv] at hout
      exact absurd hout (fun hc => Except.noConfusion hc)

/-- Claim C2, witness: a run on the real registry with one operation whose
parameter kind is unregistered ends in the validation error and emits no
file list. -/
theorem C2_witness :
    runGenerator typedef_list [badParamOp] =
      Except.error ⟨"frobnicator_ptr", badParamOp⟩ ∧
    ∀ out, runGenerator typedef_list [badParamOp] ≠ Except.ok out :=
  (C2_no_emission_on_validation_failure typedef_list [badParamOp]).1
    ⟨"frobnicator_ptr", badParamOp⟩ rfl

/-- Claim C3: whenever some operation references an unregistered parameter
kind, the run halts with an error (modelling the uncaught exception and
hence the non-zero process outcome) whose payload carries the offending
kind name and the operation that referenced it. -/
theorem C3_error_names_kind_and_operation (tdl : List typedef)
    (fns : List future_function)
    (h : ∃ fn ∈ fns, ∃ p ∈ fn.params,
      p.type_name ∉ tdl.map typedef.name) :
    ∃ e : BadType, runGenerator tdl fns = Except.error e ∧
      e.type_name ∉ tdl.map typedef.name ∧ e.fn ∈ fns ∧
      ∃ p ∈ e.fn.params, p.type_name = e.type_name := by
  have hne : ¬ ∀ fn ∈ fns, ∀ p ∈ fn.params,
      p.type_name ∈ tdl.map typedef.name := by
    rcases h with ⟨fn, hfn, p, hp, hnot⟩
    intro hall
    exact hnot (hall fn hfn p hp)
  rcases validate_exists_error (tdl.map typedef.name) fns hne with
    ⟨e, he, h1, h2, h3⟩
  refine ⟨e, ?_, h1, h2, h3⟩
  unfold runGenerator
  rw [he]

/-- Claim C3, witness: the concrete operation list containing `badParamOp`
produces an error naming `frobnicator_ptr` and that operation. -/
theorem C3_witness :
    ∃ e : BadType, runGenerator typedef_list [badParamOp] = Except.error e ∧
      e.type_name ∉ typedef_list.map typedef.name ∧ e.fn ∈ [badParamOp] ∧
      ∃ p ∈ e.fn.params, p.type_name = e.type_name :=
  C3_error_names_kind_and_operation typedef_list [badParamOp] (by decide)

/-- Claim C4: when every operation in the list has its return kind and all
its parameter kinds registered, validation raises no error and the run
proceeds to emission, producing the full file list. -/
theorem C4_registered_ops_validate_ok (tdl : List typedef)
    (fns : List future_function)
    (h : ∀ fn ∈ fns, fn.ret_type ∈ tdl.map typedef.name ∧
      ∀ p ∈ fn.params, p.type_name ∈ tdl.map typedef.name) :
    validate (tdl.map typedef.name) fns = Except.ok () ∧
    runGenerator tdl fns = Except.ok files := by
  have hok : validate (tdl.map typedef.name) fns = Except.ok () :=
    (validate_ok_iff _ fns).mpr (fun fn hfn p hp => (h fn hfn).2 p hp)
  refine ⟨hok, ?_⟩
  unfold runGenerator
  rw [hok]

/-- Claim C4, witness: the actual registry and operation list of the source
satisfy the hypothesis, validation succeeds and all six files are
emitted. -/
theorem C4_witness :
    validate (typedef_list.map typedef.name) future_functions =
      Except.ok () ∧
    runGenerator typedef_list future_functions = Except.ok files :=
  C4_registered_ops_validate_ok typedef_list future_functions (by decide)

/-- Claim C5, counterexample: a registry list with the name `bool` twice is
not detected as a configuration error; the generator neither aborts at
setup nor during validation, and emission completes normally. -/
theorem C5_counterexample :
    ¬ (dupRegistry.map typedef.name).Nodup ∧
    runGenerator dupRegistry [dupOp] = Except.ok files :=
  ⟨by decide, rfl⟩

/-- Claim C5, amended: the generator performs no duplicate-name detection at
all; duplicating every registry entry changes nothing about the run, since
validation only tests name membership.  The actual registry of the source
happens to contain pairwise distinct names. -/
theorem C5_amended_duplicates_undetected :
    (typedef_list.map typedef.name).Nodup ∧
    ∀ (tdl : List typedef) (fns : List future_function),
      runGenerator (tdl ++ tdl) fns = runGenerator tdl fns := by
  refine ⟨by decide, ?_⟩
  intro tdl fns
  unfold runGenerator
  rw [List.map_append, validate_membership_invariant
    (tdl.map typedef.name ++ tdl.map typedef.name) (tdl.map typedef.name)
    (fun s => by simp [List.mem_append]) fns]

/-- Claim C6: the operation names in the static descriptor list are
pairwise distinct, and validation accepts that list, so generation proceeds
with the uniqueness invariant holding. -/
theorem C6_operation_names_unique :
    (future_functions.map future_function.name).Nodup ∧
    validate type_list future_functions = Except.ok () :=
  ⟨by decide, rfl⟩

/-- Claim C8: the validation loop, embedded as a state transition threading
the registry and operation list through every iteration, returns the state
it was given whenever it succeeds, and otherwise raises; in both cases the
registry and the operation list are exactly what they were before the
pass. -/
theorem C8_validation_is_read_only (s : GenState) :
    (∀ s1, validationLoop s = Except.ok s1 →
      s1.typedefs = s.typedefs ∧ s1.ops = s.ops) ∧
    (validationLoop s = Except.ok s ∨
      ∃ e, validationLoop s = Except.error e) := by
  constructor
  · intro s1 h
    rw [validationLoopAux_preserves s.ops s s1 h]
    exact ⟨rfl, rfl⟩
  · cases h : validationLoop s with
    | ok s1 =>
      have hs : s1 = s := validationLoopAux_preserves s.ops s s1 h
      exact Or.inl (congrArg Except.ok hs)
    | error e => exact Or.inr ⟨e, rfl⟩

/-- Claim C8, witness: on the state holding the real registry and operation
list, the validation pass succeeds and preserves both lists. -/
theorem C8_witness :
    (GenState.mk typedef_list future_functions).typedefs = typedef_list ∧
    (GenState.mk typedef_list future_functions).ops = future_functions :=
  (C8_validation_is_read_only ⟨typedef_list, future_functions⟩).1
    ⟨typedef_list, future_functions⟩ rfl

/-- Claim C9: two registries whose entries carry the same names in the same
order, however their representation descriptors differ, give the same
validation outcome (the same success or the exact same error) and the same
overall run result. -/
theorem C9_representation_independent (tdl1 tdl2 : List typedef)
    (fns : List future_function)
    (h : tdl1.map typedef.name = tdl2.map typedef.name) :
    validate (tdl1.map typedef.name) fns =
      validate (tdl2.map typedef.name) fns ∧
    runGenerator tdl1 fns = runGenerator tdl2 fns := by
  constructor
  · rw [h]
  · unfold runGenerator
    rw [h]

/-- Claim C9, witness: erasing every representation descriptor from the real
registry leaves the validation outcome and the run result unchanged. -/
theorem C9_witness :
    validate (typedef_list.map typedef.name) future_functions =
      validate (strippedRegistry.map typedef.name) future_functions ∧
    runGenerator typedef_list future_functions =
      runGenerator strippedRegistry future_functions :=
  C9_representation_independent typedef_list strippedRegistry
    future_functions (by decide)

/-- Claim C10: validation is deterministic and raises at most one error:
its result equals the lookup of the first parameter, scanning operations in
declared order and parameters in declared order, whose kind is absent from
the registry — success when there is none, and otherwise the error naming
exactly that kind and its operation. -/
theorem C10_first_unregistered_in_scan_order (tl : List String)
    (fns : List future_function) :
    validate tl fns =
      match firstUnregisteredParam tl fns with
      | none => Except.ok ()
      | some (fn, p) => Except.error ⟨p.type_name, fn⟩ :=
  validate_eq_firstUnregistered tl fns
